import Mathlib

/-!
# TU-DO Dimmer firmware — verification of the spec against `src/main.cpp`

A shallow embedding of the dimmer firmware (`src/src/main.cpp`).  Machine
integers are modelled as `Nat` with explicit `% 2^w` where C overflow can
occur; Arduino `String` is `List Char`; the hardware collaborators
(potentiometer sampler, RGB strip driver, PWM output, EEPROM, 7-segment
indicator, serial output) are modelled as state fields plus an explicit
effect trace.  Compile-time configuration constants from `config.h`
(`POT_MOV_DET_MAX_DEV`, `POT_MOV_DET_AVG_SAMPLES`) are parameters; the
build is the default one presented by the documentation: `NO_MAIN_STRIP`
undefined (the main channel exists and is compared), `POTS_INVERTED`
undefined, all pot lower bounds zero.
-/

set_option maxRecDepth 4096

namespace Dimmer

/-- NeoPixelBus `RgbColor`: three 8-bit channels (values kept in `Nat`,
intended range `[0,255]`). -/
structure RgbColor where
  R : Nat
  G : Nat
  B : Nat
deriving DecidableEq, Repr

/-- `struct rgbm`: RGB plus the Main-light brightness channel. -/
structure rgbm where
  rgb : RgbColor
  M : Nat
deriving DecidableEq, Repr

/-- `uint32_pow(base, pow)`: the loop `ret *= base` on a `uint32_t`
accumulator, i.e. each multiplication wraps modulo `2^32`. -/
def uint32_pow (base : Nat) : Nat → Nat
  | 0 => 1
  | p + 1 => (uint32_pow base p * base) % 2 ^ 32

/-- The character classification inside `hexstr_to_uint32`'s loop:
`'0'..'9'` → value − 0x30, `'A'..'F'` → value − 55, `'a'..'f'` → value − 87,
anything else is invalid.  C compares character codes, so we compare
`Char.toNat`. -/
def hexDigitVal (c : Char) : Option Nat :=
  if 48 ≤ c.toNat ∧ c.toNat ≤ 57 then some (c.toNat - 48)
  else if 65 ≤ c.toNat ∧ c.toNat ≤ 70 then some (c.toNat - 55)
  else if 97 ≤ c.toNat ∧ c.toNat ≤ 102 then some (c.toNat - 87)
  else none

/-- The loop body of `hexstr_to_uint32`: `len` is `hexstr.length()`, `i` the
current index, `acc` the `uint32_t` accumulator `hex`.  Each addition of
`digit * uint32_pow(16, len-1-i)` lives in `uint32_t`, hence the `% 2^32`. -/
def hexstr_go (len i acc : Nat) : List Char → Option Nat
  | [] => some acc
  | c :: rest =>
      match hexDigitVal c with
      | some d => hexstr_go len (i + 1) ((acc + d * uint32_pow 16 (len - 1 - i)) % 2 ^ 32) rest
      | none => none

/-- `hexstr_to_uint32(hexstr, &hex)`: `some value` on success (the value
written through the out pointer), `none` when an invalid hex character is
found. -/
def hexstr_to_uint32 (s : List Char) : Option Nat :=
  hexstr_go s.length 0 0 s

/-- Arduino `String::operator[]` / `charAt`: returns the NUL character when
the index is out of range. -/
def charAt (s : List Char) (i : Nat) : Char :=
  s.getD i (Char.ofNat 0)

/-- Arduino `String::substring(left, right)`: swaps the bounds if
`left > right`, clamps `right` to the length, empty when `left ≥ length`.
Characters `[left, right)` are returned. -/
def substring (s : List Char) (l r : Nat) : List Char :=
  (s.take (max l r)).drop (min l r)

/-- `RGB_HEX_STR_LEN` (`#AABBCC`). -/
def RGB_HEX_STR_LEN : Nat := 7
/-- `RGBM_HEX_STR_LEN` (`#AABBCCDD`). -/
def RGBM_HEX_STR_LEN : Nat := 9

/-- `hexstr_to_rgb(hex, &rgb)`: requires a leading `'#'`, parses
`hex.substring(1, 7)` as hex, and on success converts through NeoPixelBus
`HtmlColor` → `RgbColor` (`R = (v >> 16) & 0xff`, `G = (v >> 8) & 0xff`,
`B = v & 0xff`). -/
def hexstr_to_rgb (hex : List Char) : Option RgbColor :=
  if charAt hex 0 ≠ '#' then none
  else
    match hexstr_to_uint32 (substring hex 1 RGB_HEX_STR_LEN) with
    | none => none
    | some v => some ⟨v / 2 ^ 16 % 2 ^ 8, v / 2 ^ 8 % 2 ^ 8, v % 2 ^ 8⟩

/-- `hexstr_to_rgbm(hex, rgbm*)`: returns the C function's boolean together
with the final contents of the caller's `rgbm` object `r` (the function
writes through the pointer, possibly partially before failing).
`rgbm->M = m` narrows the parsed `uint32_t` to `uint8_t`, hence `% 2^8`. -/
def hexstr_to_rgbm (hex : List Char) (r : rgbm) : Bool × rgbm :=
  if charAt hex 0 ≠ '#' then (false, r)
  else
    match hexstr_to_rgb (substring hex 0 RGB_HEX_STR_LEN) with
    | none => (false, r)
    | some rgb =>
        let r1 : rgbm := { r with rgb := rgb }
        match hexstr_to_uint32 (substring hex RGB_HEX_STR_LEN RGBM_HEX_STR_LEN) with
        | none => (false, r1)
        | some m => (true, { r1 with M := m % 2 ^ 8 })

/-- `adc_to_rgb(val)`: maps a raw `analogRead` value (0–1023) to an 8-bit
channel: `0 → 0`, `1..3 → 1`, otherwise `val >> 2`. -/
def adc_to_rgb (val : Nat) : Nat :=
  if val = 0 then 0
  else if val < 4 then 1
  else val / 4

/-- The accumulation loop of `avg_pot_read`: `avg += analogRead(pin)` on a
`uint64_t` accumulator (wrapping modulo `2^64`); `reads i` is the raw value
returned by the `i`-th `analogRead`. -/
def avg_pot_acc (reads : Nat → Nat) : Nat → Nat
  | 0 => 0
  | n + 1 => (avg_pot_acc reads n + reads n) % 2 ^ 64

/-- `avg_pot_read(pin, samples)`: accumulates `samples` raw reads and
computes `adc_to_rgb(round(avg/samples))`.  In the source `avg / samples`
is *integer* division (`uint64_t / uint16_t`), so the quotient is already
truncated before `round` sees it: the `round` call is the identity. -/
def avg_pot_read (reads : Nat → Nat) (samples : Nat) : Nat :=
  adc_to_rgb (avg_pot_acc reads samples / samples)

/-- Modelled from the spec (§4.1, "divides with rounding (not truncation) by
`sample_count`"): the same average but with the quotient rounded to the
nearest integer (half away from zero, as C `round` would do had the
division been performed in floating point). -/
def avg_pot_read_rounded (reads : Nat → Nat) (samples : Nat) : Nat :=
  adc_to_rgb ((avg_pot_acc reads samples + samples / 2) / samples)

/-- The live analog environment for one multi-sample averaging call: the
raw `analogRead` sequences of the four potentiometer pins. -/
structure PotEnv where
  r : Nat → Nat
  g : Nat → Nat
  b : Nat → Nat
  m : Nat → Nat

/-- `avg_rgbm_pot_read(R_POT, G_POT, B_POT, M_POT, samples)`. -/
def avg_rgbm_pot_read (env : PotEnv) (samples : Nat) : rgbm :=
  ⟨⟨avg_pot_read env.r samples, avg_pot_read env.g samples, avg_pot_read env.b samples⟩,
    avg_pot_read env.m samples⟩

/-- C `abs(a - b)` where `a`, `b` are `uint8_t` channel values promoted to
`int` before the subtraction. -/
def absdiff (a b : Nat) : Nat :=
  ((a : Int) - (b : Int)).natAbs

/-- `rgbm_pot_mov_det(rgbmpots, avg, max_dev)`: true iff some channel's
absolute difference from the average strictly exceeds `max_dev`
(the `M` channel is compared since `NO_MAIN_STRIP` is not defined). -/
def rgbm_pot_mov_det (rgbmpots avg : rgbm) (max_dev : Nat) : Bool :=
  decide (absdiff rgbmpots.rgb.R avg.rgb.R > max_dev) ||
  decide (absdiff rgbmpots.rgb.G avg.rgb.G > max_dev) ||
  decide (absdiff rgbmpots.rgb.B avg.rgb.B > max_dev) ||
  decide (absdiff rgbmpots.M avg.M > max_dev)

/-- Observable calls to the hardware collaborators, in program order. -/
inductive Effect where
  | setStrip (c : RgbColor)
  | writeMain (m : Nat)
  | indicatorSet (d : Nat)
  | indicatorShow
  | indicatorBlink
  | serialPrint (msg : List Char)
deriving DecidableEq, Repr

/-- The firmware's global mutable state: the RGB strip driver's current
color (`rgbstrp.get`), `mainstrp_bright`, the globals `rgbmpots`, `avg`,
`programmed`, `current_patch`, the in-RAM `patches` array and the EEPROM
patch region. -/
structure DimmerState where
  rgbstrp : RgbColor
  mainstrp_bright : Nat
  rgbmpots : rgbm
  avg : rgbm
  programmed : Bool
  patches : Nat → rgbm
  current_patch : Nat
  eeprom : Nat → rgbm

/-- The message printed on a malformed hex line. -/
def invalid_hex_msg : List Char := "Invalid hex value!".data

/-- Result of processing one serial line terminator: the local `valid`
flag, the new global state and the emitted effects. -/
structure SerialResult where
  valid : Bool
  state : DimmerState
  effects : List Effect

/-- The `'\n'` case of `serialEvent` (`src/main.cpp:442-476`): classify the
buffered command `cmdbuf` by length, parse, apply on success, recompute the
movement-detection baseline from `samples` fresh pot reads and set
`programmed`; print the invalid-value message otherwise.  The local
`rgbm rgbm;` is uninitialized in C; it is modelled with a zero initial
value, which is only observable through `hexstr_to_rgbm`'s result when the
parse fails, in which case the code does not use it. -/
def serial_newline (env : PotEnv) (samples : Nat) (cmdbuf : List Char)
    (s : DimmerState) : SerialResult :=
  let applied : Bool × DimmerState × List Effect :=
    if cmdbuf.length = RGB_HEX_STR_LEN then
      match hexstr_to_rgb cmdbuf with
      | some rgb => (true, { s with rgbstrp := rgb }, [Effect.setStrip rgb])
      | none => (false, s, [])
    else if cmdbuf.length = RGBM_HEX_STR_LEN then
      match hexstr_to_rgbm cmdbuf ⟨⟨0, 0, 0⟩, 0⟩ with
      | (true, p) =>
          (true, { s with rgbstrp := p.rgb, mainstrp_bright := p.M },
            [Effect.setStrip p.rgb, Effect.writeMain p.M])
      | (false, _) => (false, s, [])
    else
      (false, s, [])
  match applied with
  | (true, s1, effs) =>
      ⟨true,
        { s1 with avg := avg_rgbm_pot_read env samples, programmed := true },
        effs⟩
  | (false, s1, effs) =>
      ⟨false, s1, effs ++ [Effect.serialPrint invalid_hex_msg]⟩

/-- `change_patch(up)` (`src/main.cpp:498-521`): move the cursor by ±1 when
not at the corresponding end, and on a valid move load the patch, reset the
baseline from `samples` fresh reads, set `programmed` and update the
indicator digit.  `patch_indicator.show(PATCH_DISPLAY_TIME)` is called
unconditionally, after the `if (!invalid)` block. -/
def change_patch (up : Bool) (env : PotEnv) (samples : Nat)
    (s : DimmerState) : DimmerState × List Effect :=
  let step : Bool × DimmerState :=
    if up ∧ s.current_patch < 9 then
      (false, { s with current_patch := s.current_patch + 1 })
    else if ¬ up ∧ s.current_patch > 0 then
      (false, { s with current_patch := s.current_patch - 1 })
    else
      (true, s)
  match step with
  | (false, s1) =>
      let p := s1.patches s1.current_patch
      ({ s1 with
          rgbstrp := p.rgb,
          mainstrp_bright := p.M,
          avg := avg_rgbm_pot_read env samples,
          programmed := true },
        [Effect.setStrip p.rgb, Effect.writeMain p.M,
          Effect.indicatorSet s1.current_patch, Effect.indicatorShow])
  | (true, s1) => (s1, [Effect.indicatorShow])

/-- `save_patch()` (`src/main.cpp:554-560`): copy the strip driver's current
color and `mainstrp_bright` into `patches[current_patch]`, `EEPROM.put` the
slot, and blink the indicator. -/
def save_patch (s : DimmerState) : DimmerState × List Effect :=
  let v : rgbm := ⟨s.rgbstrp, s.mainstrp_bright⟩
  ({ s with
      patches := fun i => if i = s.current_patch then v else s.patches i,
      eeprom := fun i => if i = s.current_patch then v else s.eeprom i },
    [Effect.indicatorBlink])

/-- One debounced encoder event per control cycle. -/
inductive EncoderAction where
  | none
  | pressed
  | left
  | right
deriving DecidableEq, Repr

/-- One pass of `loop()` (`src/main.cpp:641-670`): store the fresh pot
reading in `rgbmpots`; if not programmed, or movement beyond `dev` is
detected against `avg`, adopt the live reading and clear `programmed`;
then dispatch the encoder action.  `reading` is the value
`rgbm_pots_read` returned this cycle and `env` the analog environment for
any baseline recomputation inside `change_patch`. -/
def loop (dev samples : Nat) (env : PotEnv) (reading : rgbm)
    (enc : EncoderAction) (s : DimmerState) : DimmerState × List Effect :=
  let s0 := { s with rgbmpots := reading }
  let arb : DimmerState × List Effect :=
    if ¬ s0.programmed ∨ rgbm_pot_mov_det reading s0.avg dev then
      ({ s0 with
          rgbstrp := reading.rgb,
          mainstrp_bright := reading.M,
          programmed := false },
        [Effect.setStrip reading.rgb, Effect.writeMain reading.M])
    else
      (s0, [])
  match enc with
  | EncoderAction.pressed =>
      let (s2, e2) := save_patch arb.1
      (s2, arb.2 ++ e2)
  | EncoderAction.left =>
      let (s2, e2) := change_patch false env samples arb.1
      (s2, arb.2 ++ e2)
  | EncoderAction.right =>
      let (s2, e2) := change_patch true env samples arb.1
      (s2, arb.2 ++ e2)
  | EncoderAction.none => arb

/-- `n` consecutive control cycles, each presented with the same pot
reading and no encoder activity. -/
def loop_iter (dev samples : Nat) (env : PotEnv) (reading : rgbm) :
    Nat → DimmerState → DimmerState
  | 0, s => s
  | n + 1, s => loop_iter dev samples env reading n
      (loop dev samples env reading EncoderAction.none s).1

/-- A fixed analog environment used to instantiate universally quantified
theorems at a concrete input. -/
def env0 : PotEnv :=
  ⟨fun _ => 8, fun _ => 8, fun _ => 8, fun _ => 8⟩

/-- A fixed firmware state used to instantiate universally quantified
theorems at a concrete input: programmed, baseline `(10,10,10,10)`,
cursor at patch 0. -/
def state0 : DimmerState where
  rgbstrp := ⟨1, 2, 3⟩
  mainstrp_bright := 4
  rgbmpots := ⟨⟨0, 0, 0⟩, 0⟩
  avg := ⟨⟨10, 10, 10⟩, 10⟩
  programmed := true
  patches := fun _ => ⟨⟨0, 0, 0⟩, 0⟩
  current_patch := 0
  eeprom := fun _ => ⟨⟨0, 0, 0⟩, 0⟩

/-! ## Helper lemmas -/

lemma absdiff_self (a : Nat) : absdiff a a = 0 := by
  simp [absdiff]

lemma mov_det_self (x : rgbm) (d : Nat) : rgbm_pot_mov_det x x d = false := by
  simp [rgbm_pot_mov_det, absdiff_self]

lemma mov_det_iff (cur base : rgbm) (d : Nat) :
    rgbm_pot_mov_det cur base d = true ↔
      (absdiff cur.rgb.R base.rgb.R > d ∨ absdiff cur.rgb.G base.rgb.G > d ∨
       absdiff cur.rgb.B base.rgb.B > d ∨ absdiff cur.M base.M > d) := by
  simp [rgbm_pot_mov_det, or_assoc]

lemma hexDigitVal_le (c : Char) (v : Nat) (h : hexDigitVal c = some v) : v ≤ 15 := by
  unfold hexDigitVal at h
  split_ifs at h with h1 h2 h3 <;> simp_all <;> omega

lemma hexstr_go_none (len i acc : Nat) (ds : List Char)
    (h : ∃ c ∈ ds, hexDigitVal c = none) : hexstr_go len i acc ds = none := by
  induction ds generalizing i acc with
  | nil => rcases h with ⟨c, hc, _⟩; cases hc
  | cons c rest ih =>
      rcases h with ⟨c', hc', hval⟩
      rcases List.mem_cons.mp hc' with rfl | hmem
      · simp [hexstr_go, hval]
      · unfold hexstr_go
        cases hd : hexDigitVal c
        · rfl
        · exact ih _ _ ⟨c', hmem, hval⟩

lemma hexstr_six_digits (c0 c1 c2 c3 c4 c5 : Char) (v0 v1 v2 v3 v4 v5 : Nat)
    (h0 : hexDigitVal c0 = some v0) (h1 : hexDigitVal c1 = some v1)
    (h2 : hexDigitVal c2 = some v2) (h3 : hexDigitVal c3 = some v3)
    (h4 : hexDigitVal c4 = some v4) (h5 : hexDigitVal c5 = some v5) :
    hexstr_to_uint32 [c0, c1, c2, c3, c4, c5] =
      some (v0 * 16 ^ 5 + v1 * 16 ^ 4 + v2 * 16 ^ 3 + v3 * 16 ^ 2 + v4 * 16 + v5) := by
  have b0 := hexDigitVal_le c0 v0 h0
  have b1 := hexDigitVal_le c1 v1 h1
  have b2 := hexDigitVal_le c2 v2 h2
  have b3 := hexDigitVal_le c3 v3 h3
  have b4 := hexDigitVal_le c4 v4 h4
  have b5 := hexDigitVal_le c5 v5 h5
  simp only [hexstr_to_uint32, hexstr_go, h0, h1, h2, h3, h4, h5, List.length_cons,
    List.length_nil, uint32_pow]
  norm_num
  omega

lemma hexstr_to_rgb_some_hash (h : List Char) (c : RgbColor)
    (hs : hexstr_to_rgb h = some c) : charAt h 0 = '#' := by
  by_cases hh : charAt h 0 = '#'
  · exact hh
  · rw [hexstr_to_rgb, if_pos hh] at hs
    cases hs

lemma charAt_take (h : List Char) (n : Nat) (hn : 0 < n) :
    charAt (h.take n) 0 = charAt h 0 := by
  cases h with
  | nil => simp [charAt]
  | cons c rest =>
      cases n with
      | zero => omega
      | succ m => simp [charAt]

/-! ## Claim theorems -/

/-- C9: for every raw reading in `[0, 1023]`, `adc_to_rgb` maps 0 to 0,
1–3 to 1, and any value ≥ 4 to the value divided by 4, so the result is
always in `[0, 255]`. -/
theorem adc_to_rgb_mapping (val : Nat) (h : val ≤ 1023) :
    (val = 0 → adc_to_rgb val = 0) ∧
    (1 ≤ val → val ≤ 3 → adc_to_rgb val = 1) ∧
    (4 ≤ val → adc_to_rgb val = val / 4) ∧
    adc_to_rgb val ≤ 255 := by
  unfold adc_to_rgb
  refine ⟨?_, ?_, ?_, ?_⟩ <;> split_ifs <;> omega

theorem adc_to_rgb_mapping_witness :
    1023 ≤ 1023 ∧ adc_to_rgb 1023 = 1023 / 4 ∧ adc_to_rgb 1023 ≤ 255 :=
  ⟨by decide, (adc_to_rgb_mapping 1023 (by decide)).2.2.1 (by decide),
    (adc_to_rgb_mapping 1023 (by decide)).2.2.2⟩

/-- C3: movement detection never fires on a sample compared against itself;
it fires exactly when the absolute per-channel difference strictly exceeds
the bound on at least one compared channel; a difference exactly equal to
the bound on every channel does not fire. -/
theorem mov_det_characterization (x cur base : rgbm) (d : Nat) :
    rgbm_pot_mov_det x x d = false ∧
    (rgbm_pot_mov_det cur base d = true ↔
      (absdiff cur.rgb.R base.rgb.R > d ∨ absdiff cur.rgb.G base.rgb.G > d ∨
       absdiff cur.rgb.B base.rgb.B > d ∨ absdiff cur.M base.M > d)) ∧
    (absdiff cur.rgb.R base.rgb.R = d → absdiff cur.rgb.G base.rgb.G = d →
     absdiff cur.rgb.B base.rgb.B = d → absdiff cur.M base.M = d →
     rgbm_pot_mov_det cur base d = false) := by
  refine ⟨mov_det_self x d, mov_det_iff cur base d, ?_⟩
  intro hR hG hB hM
  rw [← Bool.not_eq_true, mov_det_iff]
  omega

theorem mov_det_characterization_witness :
    rgbm_pot_mov_det ⟨⟨7, 7, 7⟩, 7⟩ ⟨⟨7, 7, 7⟩, 7⟩ 0 = false ∧
    rgbm_pot_mov_det ⟨⟨3, 0, 0⟩, 0⟩ ⟨⟨1, 2, 2⟩, 2⟩ 2 = false :=
  ⟨(mov_det_characterization ⟨⟨7, 7, 7⟩, 7⟩ ⟨⟨7, 7, 7⟩, 7⟩ ⟨⟨7, 7, 7⟩, 7⟩ 0).1,
    (mov_det_characterization ⟨⟨7, 7, 7⟩, 7⟩ ⟨⟨3, 0, 0⟩, 0⟩ ⟨⟨1, 2, 2⟩, 2⟩ 2).2.2
      (by decide) (by decide) (by decide) (by decide)⟩

/-- C7 (code bug): `avg_pot_read` computes `round(avg/samples)` where
`avg / samples` is `uint64_t` integer division, so the quotient is
truncated before `round` is applied — the average is NOT rounded to the
nearest integer as the spec states.  At raw reads `(7, 8)` with
`samples = 2` the code truncates `15/2` to `7` (channel value 1) while
rounding would give `8` (channel value 2). -/
theorem avg_pot_read_truncates :
    avg_pot_read (fun i => if i = 0 then 7 else 8) 2 = 1 ∧
    avg_pot_read_rounded (fun i => if i = 0 then 7 else 8) 2 = 2 := by
  constructor <;> rfl

/-- C8: a save request changes neither the programmed flag nor the patch
cursor nor any output, and writes the output driver's current color and the
main brightness — not the live potentiometer reading — into the patch slot
at the cursor, both in RAM and in EEPROM. -/
theorem save_patch_effect (s : DimmerState) :
    (save_patch s).1.programmed = s.programmed ∧
    (save_patch s).1.current_patch = s.current_patch ∧
    (save_patch s).1.patches s.current_patch = ⟨s.rgbstrp, s.mainstrp_bright⟩ ∧
    (save_patch s).1.eeprom s.current_patch = ⟨s.rgbstrp, s.mainstrp_bright⟩ ∧
    (save_patch s).1.rgbstrp = s.rgbstrp ∧
    (save_patch s).1.mainstrp_bright = s.mainstrp_bright ∧
    (save_patch s).1.avg = s.avg ∧
    (save_patch s).1.rgbmpots = s.rgbmpots := by
  simp [save_patch]

/-- C6 (counterexample): at cursor 0 a Previous request is invalid and the
state — cursor included — is unchanged, yet `change_patch` still calls
`patch_indicator.show(PATCH_DISPLAY_TIME)` (the call sits after, and
outside, the `if (!invalid)` block), so the caller does NOT suppress every
visual response on an invalid navigation: the 7-segment display lights up
showing the current patch number. -/
theorem change_patch_invalid_still_shows :
    (change_patch false env0 1 state0).1.current_patch = 0 ∧
    (change_patch false env0 1 state0).2 = [Effect.indicatorShow] := by
  constructor <;> rfl

/-- C6 (amended): the patch cursor always stays within `[0, 9]`: from
cursor 0 a Previous request is invalid and leaves the whole state (cursor
included) unchanged, from cursor 9 a Next request is invalid and leaves
the state unchanged (no wraparound), and every valid navigation changes
the cursor by exactly ±1.  On an invalid navigation the caller suppresses
the patch load, output update, baseline reset, programmed flag and
indicator-digit update, but still triggers the indicator show. -/
theorem change_patch_clamped (up : Bool) (env : PotEnv) (samples : Nat)
    (s : DimmerState) (hc : s.current_patch ≤ 9) :
    (change_patch up env samples s).1.current_patch ≤ 9 ∧
    (s.current_patch = 0 → up = false →
      (change_patch up env samples s).1 = s ∧
      (change_patch up env samples s).2 = [Effect.indicatorShow]) ∧
    (s.current_patch = 9 → up = true →
      (change_patch up env samples s).1 = s ∧
      (change_patch up env samples s).2 = [Effect.indicatorShow]) ∧
    (up = true → s.current_patch < 9 →
      (change_patch up env samples s).1.current_patch = s.current_patch + 1) ∧
    (up = false → 0 < s.current_patch →
      (change_patch up env samples s).1.current_patch = s.current_patch - 1) := by
  unfold change_patch
  by_cases hup : up = true
  · by_cases hlt : s.current_patch < 9
    · simp [hup, hlt]; omega
    · have h9 : s.current_patch = 9 := by omega
      simp [hup, hlt, h9]
  · have hup' : up = false := by simpa using hup
    by_cases hpos : 0 < s.current_patch
    · simp [hup', hpos]; omega
    · have h0 : s.current_patch = 0 := by omega
      simp [hup', h0]

theorem change_patch_clamped_witness :
    state0.current_patch ≤ 9 ∧
    (change_patch false env0 1 state0).1 = state0 ∧
    (change_patch false env0 1 state0).2 = [Effect.indicatorShow] :=
  ⟨by decide,
    ((change_patch_clamped false env0 1 state0 (by decide)).2.1 rfl rfl).1,
    ((change_patch_clamped false env0 1 state0 (by decide)).2.1 rfl rfl).2⟩

/-- C5 (counterexample): hex color parsing does NOT fail on a digit portion
whose length differs from 6.  `hexstr_to_rgb` parses `substring(1, 7)`
without any length check, so the 3-character input `"#AB"` — digit portion
of length 2 — succeeds with value `0xAB`. -/
theorem hexstr_to_rgb_short_input_parses :
    hexstr_to_rgb "#AB".data = some ⟨0, 0, 171⟩ := by decide

/-- C5 (amended): hex color parsing fails for every input missing the
leading `'#'` and for every input containing a character outside
`[0-9A-Fa-f]` among the first six characters after the `'#'` (the parser
itself performs no length check — the line length is enforced by the
caller `serialEvent`, and only `substring(1, 7)` is examined); on every
valid input it computes the unsigned value most-significant-hex-digit
first, and upper- and lower-case hex digits decode to the same value. -/
theorem hexstr_to_rgb_parse_spec (hex : List Char) (c0 c1 c2 c3 c4 c5 : Char)
    (v0 v1 v2 v3 v4 v5 : Nat) (c c' : Char) :
    (charAt hex 0 ≠ '#' → hexstr_to_rgb hex = none) ∧
    ((∃ ch ∈ substring hex 1 RGB_HEX_STR_LEN, hexDigitVal ch = none) →
      hexstr_to_rgb hex = none) ∧
    (charAt hex 0 = '#' → substring hex 1 RGB_HEX_STR_LEN = [c0, c1, c2, c3, c4, c5] →
      hexDigitVal c0 = some v0 → hexDigitVal c1 = some v1 → hexDigitVal c2 = some v2 →
      hexDigitVal c3 = some v3 → hexDigitVal c4 = some v4 → hexDigitVal c5 = some v5 →
      hexstr_to_rgb hex = some ⟨v0 * 16 + v1, v2 * 16 + v3, v4 * 16 + v5⟩) ∧
    (c'.toNat = c.toNat + 32 → 65 ≤ c.toNat → c.toNat ≤ 70 →
      hexDigitVal c' = hexDigitVal c) := by
  refine ⟨?_, ?_, ?_, ?_⟩
  · intro hh
    rw [hexstr_to_rgb, if_pos hh]
  · intro hbad
    by_cases hh : charAt hex 0 = '#'
    · rw [hexstr_to_rgb, if_neg (not_not.mpr hh), hexstr_to_uint32,
        hexstr_go_none _ _ _ _ hbad]
    · rw [hexstr_to_rgb, if_pos hh]
  · intro hh hsub h0 h1 h2 h3 h4 h5
    have b0 := hexDigitVal_le c0 v0 h0
    have b1 := hexDigitVal_le c1 v1 h1
    have b2 := hexDigitVal_le c2 v2 h2
    have b3 := hexDigitVal_le c3 v3 h3
    have b4 := hexDigitVal_le c4 v4 h4
    have b5 := hexDigitVal_le c5 v5 h5
    rw [hexstr_to_rgb, if_neg (not_not.mpr hh), hsub,
      hexstr_six_digits c0 c1 c2 c3 c4 c5 v0 v1 v2 v3 v4 v5 h0 h1 h2 h3 h4 h5]
    have eR : (v0 * 16 ^ 5 + v1 * 16 ^ 4 + v2 * 16 ^ 3 + v3 * 16 ^ 2 + v4 * 16 + v5)
        / 2 ^ 16 % 2 ^ 8 = v0 * 16 + v1 := by omega
    have eG : (v0 * 16 ^ 5 + v1 * 16 ^ 4 + v2 * 16 ^ 3 + v3 * 16 ^ 2 + v4 * 16 + v5)
        / 2 ^ 8 % 2 ^ 8 = v2 * 16 + v3 := by omega
    have eB : (v0 * 16 ^ 5 + v1 * 16 ^ 4 + v2 * 16 ^ 3 + v3 * 16 ^ 2 + v4 * 16 + v5)
        % 2 ^ 8 = v4 * 16 + v5 := by omega
    simp only [eR, eG, eB]
  · intro hcc hlo hhi
    unfold hexDigitVal
    rw [if_neg (by omega), if_neg (by omega), if_pos (by omega),
      if_neg (by omega), if_pos (by omega)]
    have : c'.toNat - 87 = c.toNat - 55 := by omega
    rw [this]

theorem hexstr_to_rgb_parse_spec_witness :
    hexstr_to_rgb "#aAbBcC".data = some ⟨170, 187, 204⟩ ∧
    hexDigitVal 'a' = hexDigitVal 'A' := by
  have h := hexstr_to_rgb_parse_spec "#aAbBcC".data
    'a' 'A' 'b' 'B' 'c' 'C' 10 10 11 11 12 12 'A' 'a'
  exact ⟨h.2.2.1 (by decide) (by decide) (by decide) (by decide) (by decide)
      (by decide) (by decide) (by decide),
    h.2.2.2 (by decide) (by decide) (by decide)⟩

/-- C10: the 9-character RGBM parse is not atomic on failure.
`hexstr_to_rgbm` assigns `rgbm->rgb` as soon as the `#RRGGBB` prefix
parses, before validating the two Main hex digits, so on an input whose
first seven characters are a valid `#RRGGBB` prefix but whose last two
characters contain a non-hex character it returns `false` with the
caller's RGB field already overwritten. -/
theorem hexstr_to_rgbm_partial_write (hex : List Char) (r : rgbm) (c : RgbColor)
    (_hlen : hex.length = 9)
    (hrgb : hexstr_to_rgb (substring hex 0 RGB_HEX_STR_LEN) = some c)
    (hbad : ∃ ch ∈ substring hex RGB_HEX_STR_LEN RGBM_HEX_STR_LEN, hexDigitVal ch = none) :
    hexstr_to_rgbm hex r = (false, { r with rgb := c }) := by
  have hh7 : charAt (substring hex 0 RGB_HEX_STR_LEN) 0 = '#' :=
    hexstr_to_rgb_some_hash _ c hrgb
  have hh : charAt hex 0 = '#' := by
    rw [← charAt_take hex RGB_HEX_STR_LEN (by decide)]
    simpa [substring] using hh7
  rw [hexstr_to_rgbm, if_neg (not_not.mpr hh), hrgb, hexstr_to_uint32,
    hexstr_go_none _ _ _ _ hbad]

theorem hexstr_to_rgbm_partial_write_witness :
    hexstr_to_rgbm "#AABBCCZZ".data ⟨⟨1, 2, 3⟩, 4⟩ =
      (false, ⟨⟨170, 187, 204⟩, 4⟩) :=
  hexstr_to_rgbm_partial_write "#AABBCCZZ".data ⟨⟨1, 2, 3⟩, 4⟩ ⟨170, 187, 204⟩
    (by decide) (by decide) ⟨'Z', by decide, by decide⟩

lemma loop_held_fix (dev samples : Nat) (env : PotEnv) (s : DimmerState)
    (hp : s.programmed = true) :
    (loop dev samples env s.avg EncoderAction.none s).1 = { s with rgbmpots := s.avg } := by
  simp [loop, hp, mov_det_self]

lemma loop_iter_held (dev samples : Nat) (env : PotEnv) (A : rgbm) (n : Nat) :
    ∀ s : DimmerState, s.programmed = true → s.avg = A →
      (loop_iter dev samples env A n s).programmed = true ∧
      (loop_iter dev samples env A n s).avg = A ∧
      (loop_iter dev samples env A n s).rgbstrp = s.rgbstrp ∧
      (loop_iter dev samples env A n s).mainstrp_bright = s.mainstrp_bright := by
  induction n with
  | zero => exact fun s hp ha => ⟨hp, ha, rfl, rfl⟩
  | succ n ih =>
      intro s hp ha
      have hfix : (loop dev samples env A EncoderAction.none s).1 =
          { s with rgbmpots := A } := by
        subst ha; exact loop_held_fix dev samples env s hp
      rw [loop_iter, hfix]
      exact ih { s with rgbmpots := A } hp ha

/-- C1: in the Held (programmed) state with baseline `B` and threshold `T`,
any number of consecutive cycles whose (mapped) potentiometer reading
equals `B` on every channel never transitions to Live and leaves the RGB
and Main outputs unchanged; a cycle whose reading differs from `B` by more
than `T` on at least one compared channel clears the programmed flag on
that exact cycle and immediately sets the outputs to that reading. -/
theorem held_arbitration (dev samples n : Nat) (env : PotEnv) (reading : rgbm)
    (s : DimmerState) (hp : s.programmed = true) :
    ((loop_iter dev samples env s.avg n s).programmed = true ∧
     (loop_iter dev samples env s.avg n s).rgbstrp = s.rgbstrp ∧
     (loop_iter dev samples env s.avg n s).mainstrp_bright = s.mainstrp_bright) ∧
    ((absdiff reading.rgb.R s.avg.rgb.R > dev ∨ absdiff reading.rgb.G s.avg.rgb.G > dev ∨
      absdiff reading.rgb.B s.avg.rgb.B > dev ∨ absdiff reading.M s.avg.M > dev) →
      (loop dev samples env reading EncoderAction.none s).1.programmed = false ∧
      (loop dev samples env reading EncoderAction.none s).1.rgbstrp = reading.rgb ∧
      (loop dev samples env reading EncoderAction.none s).1.mainstrp_bright = reading.M) := by
  constructor
  · have h := loop_iter_held dev samples env s.avg n s hp rfl
    exact ⟨h.1, h.2.2.1, h.2.2.2⟩
  · intro hdev
    have hdet : rgbm_pot_mov_det reading s.avg dev = true := (mov_det_iff _ _ _).mpr hdev
    simp [loop, hdet]

theorem held_arbitration_witness :
    ((loop_iter 2 1 env0 state0.avg 3 state0).programmed = true ∧
     (loop_iter 2 1 env0 state0.avg 3 state0).rgbstrp = state0.rgbstrp) ∧
    ((loop 2 1 env0 ⟨⟨13, 10, 10⟩, 10⟩ EncoderAction.none state0).1.programmed = false ∧
     (loop 2 1 env0 ⟨⟨13, 10, 10⟩, 10⟩ EncoderAction.none state0).1.rgbstrp = ⟨13, 10, 10⟩) := by
  have h := held_arbitration 2 1 3 env0 ⟨⟨13, 10, 10⟩, 10⟩ state0 rfl
  have h2 := h.2 (Or.inl (by decide))
  exact ⟨⟨h.1.1, h.1.2.1⟩, h2.1, h2.2.1⟩

/-- C2: whenever the serial protocol recognizes a valid set-color line —
whatever the current state — the programmed flag becomes true, the output
becomes the parsed color (Main untouched by a 7-character line), and the
movement-detection baseline is replaced wholesale by a fresh multi-sample
average of the live potentiometer reads, not by the just-applied color. -/
theorem serial_set_color_holds (env : PotEnv) (samples : Nat) (buf : List Char)
    (s : DimmerState) :
    ((serial_newline env samples buf s).valid = true →
      (serial_newline env samples buf s).state.programmed = true ∧
      (serial_newline env samples buf s).state.avg = avg_rgbm_pot_read env samples) ∧
    (∀ c, buf.length = RGB_HEX_STR_LEN → hexstr_to_rgb buf = some c →
      (serial_newline env samples buf s).valid = true ∧
      (serial_newline env samples buf s).state.rgbstrp = c ∧
      (serial_newline env samples buf s).state.mainstrp_bright = s.mainstrp_bright) ∧
    (∀ p, buf.length = RGBM_HEX_STR_LEN → hexstr_to_rgbm buf ⟨⟨0, 0, 0⟩, 0⟩ = (true, p) →
      (serial_newline env samples buf s).valid = true ∧
      (serial_newline env samples buf s).state.rgbstrp = p.rgb ∧
      (serial_newline env samples buf s).state.mainstrp_bright = p.M) := by
  refine ⟨?_, ?_, ?_⟩
  · by_cases h7 : buf.length = RGB_HEX_STR_LEN
    · cases hc : hexstr_to_rgb buf with
      | some rgb => intro _; simp [serial_newline, RGB_HEX_STR_LEN, RGBM_HEX_STR_LEN, h7, hc]
      | none => intro hv; simp [serial_newline, RGB_HEX_STR_LEN, RGBM_HEX_STR_LEN, h7, hc] at hv
    · by_cases h9 : buf.length = RGBM_HEX_STR_LEN
      · rcases hpp : hexstr_to_rgbm buf ⟨⟨0, 0, 0⟩, 0⟩ with ⟨b, p⟩
        cases b
        · intro hv; simp [serial_newline, RGB_HEX_STR_LEN, RGBM_HEX_STR_LEN, h7, h9, hpp] at hv
        · intro _; simp [serial_newline, RGB_HEX_STR_LEN, RGBM_HEX_STR_LEN, h7, h9, hpp]
      · intro hv
        simp only [RGB_HEX_STR_LEN] at h7
        simp only [RGBM_HEX_STR_LEN] at h9
        simp [serial_newline, RGB_HEX_STR_LEN, RGBM_HEX_STR_LEN, h7, h9] at hv
  · intro c h7 hc
    simp [serial_newline, RGB_HEX_STR_LEN, RGBM_HEX_STR_LEN, h7, hc]
  · intro p h9 hp
    have h7 : ¬ buf.length = RGB_HEX_STR_LEN := by rw [h9]; decide
    simp [serial_newline, RGB_HEX_STR_LEN, RGBM_HEX_STR_LEN, h7, h9, hp]

theorem serial_set_color_holds_witness :
    ((serial_newline env0 1 "#AABBCC".data state0).valid = true ∧
     (serial_newline env0 1 "#AABBCC".data state0).state.rgbstrp = ⟨170, 187, 204⟩ ∧
     (serial_newline env0 1 "#AABBCC".data state0).state.programmed = true ∧
     (serial_newline env0 1 "#AABBCC".data state0).state.avg = avg_rgbm_pot_read env0 1) ∧
    (serial_newline env0 1 "#AABBCCDD".data state0).state.mainstrp_bright = 221 := by
  have h := serial_set_color_holds env0 1 "#AABBCC".data state0
  have h1 := h.2.1 ⟨170, 187, 204⟩ (by decide) (by decide)
  have h2 := h.1 h1.1
  have h' := serial_set_color_holds env0 1 "#AABBCCDD".data state0
  have h3 := h'.2.2 ⟨⟨170, 187, 204⟩, 221⟩ (by decide) (by decide)
  exact ⟨⟨h1.1, h1.2.1, h2.1, h2.2⟩, h3.2.2⟩

/-- C4: on a line terminator, a 7-character buffer that parses as
`#RRGGBB` sets the RGB output and leaves the Main brightness unchanged; a
9-character buffer that parses as `#RRGGBBMM` sets both; any other length
or any parse failure is invalid — the state (outputs included) is
unchanged and the invalid-value message is written to the serial output. -/
theorem serial_line_classification (env : PotEnv) (samples : Nat) (buf : List Char)
    (s : DimmerState) :
    (∀ c, buf.length = RGB_HEX_STR_LEN → hexstr_to_rgb buf = some c →
      (serial_newline env samples buf s).state.rgbstrp = c ∧
      (serial_newline env samples buf s).state.mainstrp_bright = s.mainstrp_bright) ∧
    (∀ p, buf.length = RGBM_HEX_STR_LEN → hexstr_to_rgbm buf ⟨⟨0, 0, 0⟩, 0⟩ = (true, p) →
      (serial_newline env samples buf s).state.rgbstrp = p.rgb ∧
      (serial_newline env samples buf s).state.mainstrp_bright = p.M) ∧
    ((buf.length ≠ RGB_HEX_STR_LEN ∧ buf.length ≠ RGBM_HEX_STR_LEN) ∨
     (buf.length = RGB_HEX_STR_LEN ∧ hexstr_to_rgb buf = none) ∨
     (buf.length = RGBM_HEX_STR_LEN ∧ (hexstr_to_rgbm buf ⟨⟨0, 0, 0⟩, 0⟩).1 = false) →
      (serial_newline env samples buf s).valid = false ∧
      (serial_newline env samples buf s).state = s ∧
      Effect.serialPrint invalid_hex_msg ∈ (serial_newline env samples buf s).effects) := by
  refine ⟨?_, ?_, ?_⟩
  · intro c h7 hc
    simp [serial_newline, RGB_HEX_STR_LEN, RGBM_HEX_STR_LEN, h7, hc]
  · intro p h9 hp
    have h7 : ¬ buf.length = RGB_HEX_STR_LEN := by rw [h9]; decide
    simp [serial_newline, RGB_HEX_STR_LEN, RGBM_HEX_STR_LEN, h7, h9, hp]
  · rintro (⟨h7, h9⟩ | ⟨h7, hc⟩ | ⟨h9, hb⟩)
    · simp only [RGB_HEX_STR_LEN] at h7
      simp only [RGBM_HEX_STR_LEN] at h9
      simp [serial_newline, RGB_HEX_STR_LEN, RGBM_HEX_STR_LEN, h7, h9]
    · simp [serial_newline, RGB_HEX_STR_LEN, RGBM_HEX_STR_LEN, h7, hc]
    · have h7 : ¬ buf.length = RGB_HEX_STR_LEN := by rw [h9]; decide
      rcases hpp : hexstr_to_rgbm buf ⟨⟨0, 0, 0⟩, 0⟩ with ⟨b, p⟩
      rw [hpp] at hb
      cases b
      · simp [serial_newline, RGB_HEX_STR_LEN, RGBM_HEX_STR_LEN, h7, h9, hpp]
      · cases hb

theorem serial_line_classification_witness :
    (serial_newline env0 1 "#AABBCC".data state0).state.mainstrp_bright =
      state0.mainstrp_bright ∧
    (serial_newline env0 1 "#AABBCCDD".data state0).state.rgbstrp = ⟨170, 187, 204⟩ ∧
    ((serial_newline env0 1 "#ZZZZZZ".data state0).valid = false ∧
     (serial_newline env0 1 "#ZZZZZZ".data state0).state = state0 ∧
     Effect.serialPrint invalid_hex_msg ∈
       (serial_newline env0 1 "#ZZZZZZ".data state0).effects) := by
  refine ⟨((serial_line_classification env0 1 "#AABBCC".data state0).1
      ⟨170, 187, 204⟩ (by decide) (by decide)).2,
    ((serial_line_classification env0 1 "#AABBCCDD".data state0).2.1
      ⟨⟨170, 187, 204⟩, 221⟩ (by decide) (by decide)).1, ?_⟩
  exact (serial_line_classification env0 1 "#ZZZZZZ".data state0).2.2
    (Or.inr (Or.inl ⟨by decide, by decide⟩))

end Dimmer
